import Mathlib

/-
Verification development for the Vulkan device/presentation negotiation core
(src/main.rs). Machine integers (u32 indices, scores, dimension limits) are
modelled as Nat: none of the modelled quantities can overflow in the source
(queue indices and image dimensions are far below 2^32, scores add a single
u32). Fallible Vulkan queries are modelled by Option results (none = the call
returned an error); a Rust panic (unwrap/expect/index-out-of-bounds) is
modelled by a distinguished none / panicked outcome of the embedding.
-/

namespace VE

/-- Numeric code of vk Format B8G8R8A8_SRGB. -/
def B8G8R8A8_SRGB : Nat := 50

/-- Numeric code of vk ColorSpaceKHR SRGB_NONLINEAR. -/
def SRGB_NONLINEAR : Nat := 0

/-- Numeric code of vk PresentModeKHR IMMEDIATE. -/
def PRESENT_MODE_IMMEDIATE : Nat := 0

/-- Numeric code of vk PresentModeKHR MAILBOX. -/
def PRESENT_MODE_MAILBOX : Nat := 1

/-- Numeric code of vk PresentModeKHR FIFO. -/
def PRESENT_MODE_FIFO : Nat := 2

/-- Numeric code of vk PresentModeKHR FIFO_RELAXED. -/
def PRESENT_MODE_FIFO_RELAXED : Nat := 3

/-- Sentinel value u32 MAX used by the extent negotiation. -/
def U32_MAX : Nat := 4294967295

/-- One queue family of a device, as far as the selection logic reads it:
whether its queue_flags contain GRAPHICS, and the result of the
get_physical_device_surface_support query for this family
(none models the query returning Err, which the source unwraps). -/
structure QueueFamily where
  graphics : Bool
  surfaceSupport : Option Bool
deriving DecidableEq

/-- Resolved queue family indices (struct QueueIndexes, main.rs lines 20-23). -/
structure QueueIndexes where
  graphics : Nat
  present : Nat
deriving DecidableEq

/-- Accumulator of the queue scan: [Option u32; 2] in the source,
slot 0 = last graphics index, slot 1 = last present index. -/
abbrev QAcc := Option Nat × Option Nat

/-- Embedding of QueueIndexes::fold_into (main.rs lines 27-51).
Outer none = the surface-support query errored and the unwrap panicked;
Except.error = the fold short-circuits (Rust Err), Except.ok = continue. -/
def fold_into (acc : QAcc) (queue_i : Nat) (queue : QueueFamily) :
    Option (Except QAcc QAcc) :=
  let acc1 : QAcc := if queue.graphics then (some queue_i, acc.2) else acc
  let both : Bool := queue.graphics
  match queue.surfaceSupport with
  | none => none
  | some true =>
      let acc2 : QAcc := (acc1.1, some queue_i)
      if both then some (Except.error acc2) else some (Except.ok acc2)
  | some false => some (Except.ok acc1)

/-- Embedding of the try_fold over enumerated queue families
(main.rs lines 313-325): threads the accumulator, stops on Err,
propagates a panic of fold_into. -/
def tryFoldQueues : QAcc → Nat → List QueueFamily → Option (Except QAcc QAcc)
  | acc, _, [] => some (Except.ok acc)
  | acc, i, q :: qs =>
    match fold_into acc i q with
    | none => none
    | some (Except.error a) => some (Except.error a)
    | some (Except.ok a) => tryFoldQueues a (i + 1) qs

/-- Embedding of the whole queue resolution step inside pick_device
(main.rs lines 313-329): run the fold from [None, None] at index 0 and
match the outcome. Outer none = panic; inner none = the `_ => return None`
arm (candidate rejected); some some = a resolved QueueIndexes. -/
def queueIds (queues : List QueueFamily) : Option (Option QueueIndexes) :=
  match tryFoldQueues (none, none) 0 queues with
  | none => none
  | some res =>
    some (match res with
      | Except.ok (some g, some p) => some (QueueIndexes.mk g p)
      | Except.error (some g, some p) => some (QueueIndexes.mk g p)
      | _ => none)

/-- The required device extensions (TutorApp::DEVICE_EXTENSIONS, line 170). -/
def DEVICE_EXTENSIONS : List String := ["VK_KHR_swapchain"]

/-- Surface capabilities snapshot fields read by the negotiation
(vk SurfaceCapabilitiesKHR). Extents are (width, height) pairs. -/
structure SurfaceCapabilitiesKHR where
  minImageCount : Nat
  maxImageCount : Nat
  currentExtent : Nat × Nat
  minImageExtent : Nat × Nat
  maxImageExtent : Nat × Nat
deriving DecidableEq

/-- A (format, color space) pair (vk SurfaceFormatKHR). -/
structure SurfaceFormatKHR where
  format : Nat
  colorSpace : Nat
deriving DecidableEq

/-- Swapchain support snapshot (struct SwapChainSupport, lines 58-62). -/
structure SwapChainSupport where
  capabilities : SurfaceCapabilitiesKHR
  formats : List SurfaceFormatKHR
  present_modes : List Nat
deriving DecidableEq

/-- Score of one advertised pair as computed inside
choose_swap_surface_format (lines 82-88): +1 for the preferred format,
+1 for the preferred color space. -/
def formatScore (f : SurfaceFormatKHR) : Nat :=
  (if f.format = B8G8R8A8_SRGB then 1 else 0)
    + (if f.colorSpace = SRGB_NONLINEAR then 1 else 0)

/-- Embedding of SwapChainSupport::choose_swap_surface_format
(lines 78-92): pair each advertised format with its score, stably sort
ascending by score and take the first element. none models the panic of
indexing formats[0] when the advertised list is empty. -/
def choose_swap_surface_format (s : SwapChainSupport) : Option SurfaceFormatKHR :=
  let pairs := s.formats.map (fun f => (f, formatScore f))
  ((pairs.mergeSort (fun a b => decide (a.2 ≤ b.2))).head?).map (fun p => p.1)

/-- The fixed preference order DESIRED_MODES (lines 94-99). -/
def DESIRED_MODES : List Nat :=
  [PRESENT_MODE_MAILBOX, PRESENT_MODE_IMMEDIATE,
   PRESENT_MODE_FIFO_RELAXED, PRESENT_MODE_FIFO]

/-- Embedding of SwapChainSupport::choose_swap_present_mode
(lines 100-106): first element of the preference order that the snapshot
supports. none models the expect panic when no desired mode is supported. -/
def choose_swap_present_mode (s : SwapChainSupport) : Option Nat :=
  (DESIRED_MODES.filter (fun mode => s.present_modes.contains mode)).head?

/-- Clamp as used by Rust u32 clamp(min, max) on in-range values. -/
def clampNat (v lo hi : Nat) : Nat := min (max v lo) hi

/-- Embedding of SwapChainSupport::get_swap_extent (lines 108-128):
use the current extent unless its width carries the u32 MAX sentinel,
otherwise clamp the window inner size per axis. -/
def get_swap_extent (s : SwapChainSupport) (inner : Nat × Nat) : Nat × Nat :=
  let caps := s.capabilities
  if caps.currentExtent.1 ≠ U32_MAX then caps.currentExtent
  else
    (clampNat inner.1 caps.minImageExtent.1 caps.maxImageExtent.1,
     clampNat inner.2 caps.minImageExtent.2 caps.maxImageExtent.2)

/-- One device candidate as read by pick_device: its queue families, the
max_image_dimension2_d limit from its properties, the result of device
extension enumeration (none = the call errored) listing the extension
names, and the swapchain support snapshot (none = one of the three
surface queries inside SwapChainSupport::new errored). -/
structure DeviceCandidate where
  queues : List QueueFamily
  maxImageDimension2D : Nat
  extensionEnum : Option (List String)
  swapchainSupport : Option SwapChainSupport
deriving DecidableEq

/-- Outcome of evaluating one candidate inside the filter_map closure of
pick_device: eligible with a score and queue indices, filtered out, or a
panic of the surface-support unwrap. -/
inductive CandidateResult where
  | eligible : Nat → QueueIndexes → CandidateResult
  | ineligible : CandidateResult
  | panicked : CandidateResult
deriving DecidableEq

/-- Embedding of the per-candidate closure of pick_device
(main.rs lines 308-361), in source order: queue resolution, extension
enumeration and required-extension check, swapchain support query, the
emptiness check (note: the source requires BOTH lists empty to reject),
then score = 0 + max_image_dimension2_d, kept only when score > 0. -/
def evalCandidate (c : DeviceCandidate) : CandidateResult :=
  match queueIds c.queues with
  | none => CandidateResult.panicked
  | some none => CandidateResult.ineligible
  | some (some ids) =>
    match c.extensionEnum with
    | none => CandidateResult.ineligible
    | some exts =>
      if DEVICE_EXTENSIONS.any (fun e => ! exts.contains e) then
        CandidateResult.ineligible
      else
        match c.swapchainSupport with
        | none => CandidateResult.ineligible
        | some sc =>
          if sc.formats.isEmpty && sc.present_modes.isEmpty then
            CandidateResult.ineligible
          else
            let score := 0 + c.maxImageDimension2D
            if score > 0 then CandidateResult.eligible score ids
            else CandidateResult.ineligible

/-- The surviving candidates of the filter_map, in enumeration order,
each as (score, enumeration index, queue indices). -/
def eligibleOf (devs : List DeviceCandidate) : List (Nat × Nat × QueueIndexes) :=
  devs.enum.filterMap fun p =>
    match evalCandidate p.2 with
    | CandidateResult.eligible s ids => some (s, p.1, ids)
    | _ => none

/-- Fold of Rust Iterator::max_by over the non-first elements: keep the
accumulator only when strictly greater, so a later equal element replaces
an earlier one. -/
def runMax (f : α → Nat) (x : α) (xs : List α) : α :=
  xs.foldl (fun acc y => if f acc > f y then acc else y) x

/-- Embedding of Rust Iterator::max_by with a Nat key: none on an empty
iterator, otherwise the LAST element of maximal key. -/
def rustMaxBy (f : α → Nat) : List α → Option α
  | [] => none
  | x :: xs => some (runMax f x xs)

/-- Structural-recursion characterization of Rust Iterator::max_by used to
reason about rustMaxBy: keep an element of the tail maximum only when it
strictly beats the head, so the LAST element of maximal key wins. -/
def lastMax (f : α → Nat) : List α → Option α
  | [] => none
  | x :: xs =>
    match lastMax f xs with
    | none => some x
    | some m => some (if f x > f m then x else m)

/-- Index accumulator used to characterize the queue scan: walks the list
keeping the index of the last element satisfying p, starting from a given
accumulator and base index. -/
def lastIdxAux (p : QueueFamily → Bool) :
    Option Nat → Nat → List QueueFamily → Option Nat
  | acc, _, [] => acc
  | acc, i, q :: qs => lastIdxAux p (if p q then some i else acc) (i + 1) qs

/-- Index of the last queue family satisfying p, none when no family does:
the spec-side description of what the completed scan leaves in each
accumulator slot. -/
def lastIdxWhere (p : QueueFamily → Bool) (l : List QueueFamily) : Option Nat :=
  lastIdxAux p none 0 l

/-- Outcome of TutorApp::pick_device over a candidate list: panicked (a
surface-support unwrap fired while draining the iterator), noDevice (the
expect on an empty maximum, no suitable GPU), or the chosen candidate as
enumeration index, score and queue indices. -/
inductive PickResult where
  | panicked : PickResult
  | noDevice : PickResult
  | picked : Nat → Nat → QueueIndexes → PickResult
deriving DecidableEq

/-- Embedding of TutorApp::pick_device (lines 299-366): max_by over the
surviving candidates; evaluating the candidates panics the process if any
candidate evaluation panics. -/
def pick_device (devs : List DeviceCandidate) : PickResult :=
  if devs.any (fun c => decide (evalCandidate c = CandidateResult.panicked)) then
    PickResult.panicked
  else
    match rustMaxBy (fun x => x.1) (eligibleOf devs) with
    | none => PickResult.noDevice
    | some (s, i, ids) => PickResult.picked i s ids

/-- Sharing mode of the swapchain (vk SharingMode). -/
inductive SharingMode where
  | exclusive : SharingMode
  | concurrent : SharingMode
deriving DecidableEq

/-- Embedding of QueueIndexes::as_array (lines 53-55). -/
def QueueIndexes.as_array (q : QueueIndexes) : List Nat := [q.graphics, q.present]

/-- The fields of vk SwapchainCreateInfoKHR that the builder decides
(lines 429-449); an unset queue_family_indices is the empty list. -/
structure SwapchainCreateInfo where
  minImageCount : Nat
  imageFormat : Nat
  imageColorSpace : Nat
  imageExtent : Nat × Nat
  imageSharingMode : SharingMode
  queueFamilyIndices : List Nat
  presentMode : Nat
deriving DecidableEq

/-- Image count derivation inside create_swapchain (lines 415-424). -/
def image_count (caps : SurfaceCapabilitiesKHR) : Nat :=
  let curr := caps.minImageCount + 1
  if caps.maxImageCount > 0 && curr > caps.maxImageCount then caps.maxImageCount
  else curr

/-- Embedding of the parameter assembly of TutorApp::create_swapchain
(lines 404-449), given the support snapshot, the window inner size and the
queue indices: derive count, format, present mode and extent, then pick
exclusive sharing with no index list when graphics == present, else
concurrent sharing listing as_array. none models a panic of the format or
present-mode choice. -/
def create_swapchain (s : SwapChainSupport) (inner : Nat × Nat)
    (q : QueueIndexes) : Option SwapchainCreateInfo :=
  match choose_swap_surface_format s, choose_swap_present_mode s with
  | some sf, some pm =>
    some
      { minImageCount := image_count s.capabilities
        imageFormat := sf.format
        imageColorSpace := sf.colorSpace
        imageExtent := get_swap_extent s inner
        imageSharingMode :=
          if q.graphics = q.present then SharingMode.exclusive
          else SharingMode.concurrent
        queueFamilyIndices :=
          if q.graphics = q.present then [] else q.as_array
        presentMode := pm }
  | _, _ => none

/-- Embedding of the queue_info list built by TutorApp::create_logical_device
(lines 373-387): one entry for the graphics family, plus one for the
present family only when it differs. Each entry is its queue_family_index. -/
def create_logical_device_queue_infos (q : QueueIndexes) : List Nat :=
  let queue_info := [q.graphics]
  if q.graphics ≠ q.present then queue_info ++ [q.present] else queue_info

/-- Resources whose creation and destruction the lifecycle model tracks. -/
inductive Res where
  | vkInstance : Res
  | vkSurface : Res
  | vkDevice : Res
  | vkSwapchain : Res
  | imageView : Nat → Res
deriving DecidableEq

/-- Outcomes of the external fallible calls made by TutorApp::init_vulkan,
one flag per step in source order (lines 245-268): instance creation,
surface creation, device picking, logical device creation, swapchain
creation and image view creation; imageViewCount is how many views the
last step yields on success. -/
structure VulkanEnv where
  createInstanceOk : Bool
  createSurfaceOk : Bool
  pickDeviceOk : Bool
  createDeviceOk : Bool
  createSwapchainOk : Bool
  createImageViewsOk : Bool
  imageViewCount : Nat
deriving DecidableEq

/-- The fully constructed application state, reduced to what Drop reads:
the list of image view handles (the other handles are implicit, they are
always present on a fully constructed app). -/
structure TutorApp where
  swapchain_image_views : List Nat
deriving DecidableEq

/-- Embedding of TutorApp::init_vulkan (lines 227-286): run the fallible
steps in order; the first failing step propagates the error out of the
function. No destroy call happens on this unwinding path (the raw handles
have no destructors), so the error carries the handles that were already
created and are now leaked. -/
def init_vulkan (env : VulkanEnv) : Except (List Res) TutorApp :=
  if env.createInstanceOk then
    if env.createSurfaceOk then
      if env.pickDeviceOk then
        if env.createDeviceOk then
          if env.createSwapchainOk then
            if env.createImageViewsOk then
              Except.ok (TutorApp.mk (List.range env.imageViewCount))
            else
              Except.error [Res.vkInstance, Res.vkSurface, Res.vkDevice,
                            Res.vkSwapchain]
          else Except.error [Res.vkInstance, Res.vkSurface, Res.vkDevice]
        else Except.error [Res.vkInstance, Res.vkSurface]
      else Except.error [Res.vkInstance, Res.vkSurface]
    else Except.error [Res.vkInstance]
  else Except.error []

/-- Embedding of the Drop impl for TutorApp (lines 524-537): destroy every
image view, then the swapchain, the device, the surface, the instance,
unconditionally and in this order. -/
def TutorApp.drop_destroys (app : TutorApp) : List Res :=
  app.swapchain_image_views.map Res.imageView
    ++ [Res.vkSwapchain, Res.vkDevice, Res.vkSurface, Res.vkInstance]

/-- The destroy calls the program issues over its whole life for a given
environment: TutorApp::new only builds the app if init_vulkan succeeded,
so Drop (the only source of destroy calls) runs exactly on the success
path; on a construction failure no destroy call is ever made. -/
def runApp (env : VulkanEnv) : List Res :=
  match init_vulkan env with
  | Except.ok app => app.drop_destroys
  | Except.error _ => []

/-- Fixture: capabilities with no sentinel extent and unbounded max count. -/
def capsD : SurfaceCapabilitiesKHR := ⟨1, 0, (800, 600), (1, 1), (4096, 4096)⟩

/-- Fixture: a fully viable swapchain support snapshot. -/
def scGood : SwapChainSupport :=
  ⟨capsD, [⟨B8G8R8A8_SRGB, SRGB_NONLINEAR⟩], [PRESENT_MODE_FIFO]⟩

/-- Fixture: a fully viable device candidate with score 7. -/
def cGood : DeviceCandidate :=
  ⟨[⟨true, some true⟩], 7, some ["VK_KHR_swapchain"], some scGood⟩

/-- Fixture: support snapshot with an empty format list but a non-empty
present-mode list. -/
def scEmptyFormats : SwapChainSupport := ⟨capsD, [], [PRESENT_MODE_FIFO]⟩

/-- Fixture: a candidate identical to cGood except that its surface
advertises no formats at all. -/
def cEmptyFormats : DeviceCandidate :=
  ⟨[⟨true, some true⟩], 1, some ["VK_KHR_swapchain"], some scEmptyFormats⟩

/-- Fixture: a candidate whose only queue family makes the surface-support
query fail. -/
def cPanic : DeviceCandidate :=
  ⟨[⟨false, none⟩], 7, some ["VK_KHR_swapchain"], some scGood⟩

/-- Fixture: a viable candidate whose extension enumeration fails. -/
def cExtFail : DeviceCandidate := ⟨[⟨true, some true⟩], 7, none, some scGood⟩

/-- Fixture: snapshot supporting the FIFO and IMMEDIATE present modes. -/
def scFifoImmediate : SwapChainSupport :=
  ⟨capsD, [⟨B8G8R8A8_SRGB, SRGB_NONLINEAR⟩],
   [PRESENT_MODE_FIFO, PRESENT_MODE_IMMEDIATE]⟩

/-- Fixture: snapshot supporting only the FIFO present mode. -/
def scFifoOnly : SwapChainSupport :=
  ⟨capsD, [⟨B8G8R8A8_SRGB, SRGB_NONLINEAR⟩], [PRESENT_MODE_FIFO]⟩

/-- Fixture: snapshot advertising the preferred pair and a scoreless pair. -/
def scTwoFormats : SwapChainSupport :=
  ⟨capsD, [⟨B8G8R8A8_SRGB, SRGB_NONLINEAR⟩, ⟨3, 7⟩], [PRESENT_MODE_FIFO]⟩

/-- Fixture: every construction step succeeds except swapchain creation. -/
def envSwapchainFails : VulkanEnv := ⟨true, true, true, true, false, true, 0⟩

/-- Claim C1 (code bug evidence): a candidate whose surface advertises an
empty format list but a non-empty present-mode list passes the emptiness
check of pick_device (the source demands BOTH lists empty to reject) and
is chosen, even though choosing a format for that same snapshot then
panics (formats[0] on an empty vector, modelled by none). -/
theorem c1_empty_formats_accepted :
    scEmptyFormats.formats = [] ∧
    scEmptyFormats.present_modes ≠ [] ∧
    evalCandidate cEmptyFormats = CandidateResult.eligible 1 (QueueIndexes.mk 0 0) ∧
    pick_device [cEmptyFormats] = PickResult.picked 0 1 (QueueIndexes.mk 0 0) ∧
    choose_swap_surface_format scEmptyFormats = none := by
  refine ⟨rfl, by decide, by decide, by decide, ?_⟩
  simp [choose_swap_surface_format, scEmptyFormats]

/-- Claim C6 counterexample: a failing per-family surface-support query is
NOT swallowed — the candidate evaluates to a panic and the whole selection
pass panics, even though another fully viable candidate is in the list. -/
theorem c6_counterexample :
    evalCandidate cPanic = CandidateResult.panicked ∧
    evalCandidate cGood = CandidateResult.eligible 7 (QueueIndexes.mk 0 0) ∧
    pick_device [cPanic, cGood] = PickResult.panicked ∧
    pick_device [cPanic, cGood] ≠ PickResult.picked 1 7 (QueueIndexes.mk 0 0) := by
  decide

/-- Claim C6 as amended: failures of device-extension enumeration or of the
surface capability/format/present-mode queries are swallowed and make the
candidate ineligible (provided the candidate evaluation did not already
panic on a surface-support query). -/
theorem c6_amended_swallowed (c : DeviceCandidate)
    (hnp : evalCandidate c ≠ CandidateResult.panicked)
    (h : c.extensionEnum = none ∨ c.swapchainSupport = none) :
    evalCandidate c = CandidateResult.ineligible := by
  unfold evalCandidate at hnp ⊢
  cases hq : queueIds c.queues with
  | none => simp [hq] at hnp
  | some o =>
    cases o with
    | none => simp [hq]
    | some ids =>
      rcases h with h | h
      · simp [hq, h]
      · cases he : c.extensionEnum with
        | none => simp [hq, he]
        | some exts => simp [hq, he, h]

/-- Claim C6 witness: a concrete viable candidate whose extension
enumeration fails is ineligible. -/
theorem c6_witness : evalCandidate cExtFail = CandidateResult.ineligible :=
  c6_amended_swallowed cExtFail (by decide) (Or.inl rfl)

/-- Claim C7 counterexample: when swapchain creation fails after the device
was created, the program issues no destroy call at all — in particular the
logical device, the surface and the instance are NOT destroyed, contrary
to the claim. -/
theorem c7_counterexample :
    init_vulkan envSwapchainFails =
      Except.error [Res.vkInstance, Res.vkSurface, Res.vkDevice] ∧
    runApp envSwapchainFails = [] ∧
    Res.vkDevice ∉ runApp envSwapchainFails ∧
    Res.vkSurface ∉ runApp envSwapchainFails ∧
    Res.vkInstance ∉ runApp envSwapchainFails := by
  refine ⟨rfl, rfl, ?_, ?_, ?_⟩ <;>
    simp [runApp, init_vulkan, envSwapchainFails]

/-- Claim C7 as amended: if construction fails at swapchain creation, the
absent swapchain is indeed not destroyed, but only because no teardown
step runs at all — the already-created instance, surface and device are
leaked, not destroyed; the full teardown sequence (image views, swapchain,
device, surface, instance) runs only for a fully constructed app. -/
theorem c7_amended_no_teardown (env : VulkanEnv)
    (h1 : env.createInstanceOk = true) (h2 : env.createSurfaceOk = true)
    (h3 : env.pickDeviceOk = true) (h4 : env.createDeviceOk = true)
    (h5 : env.createSwapchainOk = false) :
    init_vulkan env =
      Except.error [Res.vkInstance, Res.vkSurface, Res.vkDevice] ∧
    runApp env = [] ∧
    (∀ app : TutorApp, init_vulkan env ≠ Except.ok app) ∧
    (∀ app : TutorApp,
      app.drop_destroys =
        app.swapchain_image_views.map Res.imageView
          ++ [Res.vkSwapchain, Res.vkDevice, Res.vkSurface, Res.vkInstance]) := by
  refine ⟨?_, ?_, ?_, fun app => rfl⟩
  · simp [init_vulkan, h1, h2, h3, h4, h5]
  · simp [runApp, init_vulkan, h1, h2, h3, h4, h5]
  · intro app
    simp [init_vulkan, h1, h2, h3, h4, h5]

/-- Claim C7 witness: the amended statement at the concrete environment
that fails exactly at swapchain creation. -/
theorem c7_witness :
    init_vulkan envSwapchainFails =
      Except.error [Res.vkInstance, Res.vkSurface, Res.vkDevice] ∧
    runApp envSwapchainFails = [] ∧
    (∀ app : TutorApp, init_vulkan envSwapchainFails ≠ Except.ok app) ∧
    (∀ app : TutorApp,
      app.drop_destroys =
        app.swapchain_image_views.map Res.imageView
          ++ [Res.vkSwapchain, Res.vkDevice, Res.vkSurface, Res.vkInstance]) :=
  c7_amended_no_teardown envSwapchainFails rfl rfl rfl rfl rfl

/-- Claim C8: the negotiator returns the first mode of the fixed preference
order [mailbox, immediate, relaxed-FIFO, FIFO] that the snapshot supports,
and none (the expect panic) when the snapshot supports none of the four;
in particular FIFO with IMMEDIATE yields IMMEDIATE, and FIFO alone yields
FIFO. -/
theorem c8_present_mode_preference_order :
    (∀ s : SwapChainSupport,
      choose_swap_present_mode s =
        (if PRESENT_MODE_MAILBOX ∈ s.present_modes then
          some PRESENT_MODE_MAILBOX
        else if PRESENT_MODE_IMMEDIATE ∈ s.present_modes then
          some PRESENT_MODE_IMMEDIATE
        else if PRESENT_MODE_FIFO_RELAXED ∈ s.present_modes then
          some PRESENT_MODE_FIFO_RELAXED
        else if PRESENT_MODE_FIFO ∈ s.present_modes then
          some PRESENT_MODE_FIFO
        else none)) ∧
    choose_swap_present_mode scFifoImmediate = some PRESENT_MODE_IMMEDIATE ∧
    choose_swap_present_mode scFifoOnly = some PRESENT_MODE_FIFO := by
  refine ⟨fun s => ?_, by decide, by decide⟩
  unfold choose_swap_present_mode DESIRED_MODES
  by_cases h1 : PRESENT_MODE_MAILBOX ∈ s.present_modes <;>
    by_cases h2 : PRESENT_MODE_IMMEDIATE ∈ s.present_modes <;>
      by_cases h3 : PRESENT_MODE_FIFO_RELAXED ∈ s.present_modes <;>
        by_cases h4 : PRESENT_MODE_FIFO ∈ s.present_modes <;>
          simp [List.filter, h1, h2, h3, h4]

/-- Claim C9: whenever the swapchain parameter assembly succeeds, the built
info has exclusive sharing with an empty queue-family-index list when the
graphics and present families coincide, and concurrent sharing listing
exactly the graphics index then the present index when they differ. -/
theorem c9_sharing_mode (s : SwapChainSupport) (inner : Nat × Nat)
    (q : QueueIndexes) (info : SwapchainCreateInfo)
    (h : create_swapchain s inner q = some info) :
    info.imageSharingMode =
      (if q.graphics = q.present then SharingMode.exclusive
       else SharingMode.concurrent) ∧
    info.queueFamilyIndices =
      (if q.graphics = q.present then ([] : List Nat)
       else [q.graphics, q.present]) := by
  unfold create_swapchain at h
  cases hsf : choose_swap_surface_format s with
  | none => rw [hsf] at h; exact absurd h (by simp)
  | some sf =>
    cases hpm : choose_swap_present_mode s with
    | none => rw [hsf, hpm] at h; exact absurd h (by simp)
    | some pm =>
      rw [hsf, hpm] at h
      simp only [Option.some.injEq] at h
      subst h
      by_cases hq : q.graphics = q.present <;>
        simp [hq, QueueIndexes.as_array]

/-- Claim C9 witness: the sharing-mode property instantiated at a concrete
viable snapshot and the combined queue selection (0, 0). -/
theorem c9_witness :
    (SwapchainCreateInfo.mk 2 50 0 (800, 600) SharingMode.exclusive [] 2).imageSharingMode =
      (if (QueueIndexes.mk 0 0).graphics = (QueueIndexes.mk 0 0).present then
        SharingMode.exclusive
      else SharingMode.concurrent) ∧
    (SwapchainCreateInfo.mk 2 50 0 (800, 600) SharingMode.exclusive [] 2).queueFamilyIndices =
      (if (QueueIndexes.mk 0 0).graphics = (QueueIndexes.mk 0 0).present then
        ([] : List Nat)
      else [(QueueIndexes.mk 0 0).graphics, (QueueIndexes.mk 0 0).present]) :=
  c9_sharing_mode scGood (800, 600) (QueueIndexes.mk 0 0)
    (SwapchainCreateInfo.mk 2 50 0 (800, 600) SharingMode.exclusive [] 2)
    (by
      simp [create_swapchain, choose_swap_surface_format,
        choose_swap_present_mode, scGood, capsD, DESIRED_MODES, image_count,
        get_swap_extent, clampNat, U32_MAX, formatScore, B8G8R8A8_SRGB,
        SRGB_NONLINEAR, PRESENT_MODE_FIFO, PRESENT_MODE_MAILBOX,
        PRESENT_MODE_IMMEDIATE, PRESENT_MODE_FIFO_RELAXED,
        QueueIndexes.as_array])

/-- Claim C10: create_logical_device requests one queue-create entry per
distinct family: exactly the graphics family when the two coincide, and
exactly the graphics family followed by the present family when they
differ; the requested list never repeats a family index. -/
theorem c10_one_entry_per_distinct_family (q : QueueIndexes) :
    (create_logical_device_queue_infos q).Nodup ∧
    create_logical_device_queue_infos q =
      (if q.graphics = q.present then [q.graphics]
       else [q.graphics, q.present]) := by
  by_cases h : q.graphics = q.present <;>
    simp [create_logical_device_queue_infos, h]

/-- Helper: lastMax is none exactly on the empty list. -/
theorem lastMax_eq_none {α : Type} (f : α → Nat) (l : List α) :
    lastMax f l = none ↔ l = [] := by
  cases l with
  | nil => simp [lastMax]
  | cons x xs =>
    simp only [lastMax]
    cases lastMax f xs <;> simp

/-- Helper: the element lastMax returns has a maximal key. -/
theorem lastMax_ge {α : Type} (f : α → Nat) (l : List α) (m : α)
    (hm : lastMax f l = some m) : ∀ y ∈ l, f y ≤ f m := by
  induction l generalizing m with
  | nil => simp [lastMax] at hm
  | cons x xs ih =>
    rw [lastMax] at hm
    cases hxs : lastMax f xs with
    | none =>
      rw [hxs] at hm
      simp only [Option.some.injEq] at hm
      subst hm
      intro y hy
      rcases List.mem_cons.mp hy with rfl | hy2
      · exact le_refl _
      · exfalso
        rw [(lastMax_eq_none f xs).mp hxs] at hy2
        simp at hy2
    | some mx =>
      rw [hxs] at hm
      simp only [Option.some.injEq] at hm
      subst hm
      intro y hy
      by_cases hc : f x > f mx
      · rw [if_pos hc]
        rcases List.mem_cons.mp hy with rfl | hy2
        · exact le_refl _
        · exact le_of_lt (lt_of_le_of_lt (ih mx hxs y hy2) hc)
      · rw [if_neg hc]
        rcases List.mem_cons.mp hy with rfl | hy2
        · omega
        · exact ih mx hxs y hy2

/-- Helper: the element lastMax returns splits the list into a prefix of
keys at most the maximum and a suffix of strictly smaller keys — i.e., it
is the last element attaining the maximum. -/
theorem lastMax_decomp {α : Type} (f : α → Nat) (l : List α) (m : α)
    (hm : lastMax f l = some m) :
    ∃ l₁ l₂, l = l₁ ++ m :: l₂ ∧ (∀ y ∈ l₁, f y ≤ f m) ∧
      (∀ y ∈ l₂, f y < f m) := by
  induction l generalizing m with
  | nil => simp [lastMax] at hm
  | cons x xs ih =>
    rw [lastMax] at hm
    cases hxs : lastMax f xs with
    | none =>
      rw [hxs] at hm
      simp only [Option.some.injEq] at hm
      subst hm
      rw [(lastMax_eq_none f xs).mp hxs]
      exact ⟨[], [], rfl, by simp, by simp⟩
    | some mx =>
      rw [hxs] at hm
      simp only [Option.some.injEq] at hm
      by_cases hc : f x > f mx
      · rw [if_pos hc] at hm
        subst hm
        exact ⟨[], xs, rfl, by simp,
          fun y hy => lt_of_le_of_lt (lastMax_ge f xs mx hxs y hy) hc⟩
      · rw [if_neg hc] at hm
        subst hm
        obtain ⟨l₁, l₂, heq, hle, hlt⟩ := ih mx hxs
        refine ⟨x :: l₁, l₂, by rw [heq]; rfl, ?_, hlt⟩
        intro y hy
        rcases List.mem_cons.mp hy with rfl | hy2
        · omega
        · exact hle y hy2

/-- Helper: the fold implementing max_by computes exactly lastMax. -/
theorem lastMax_cons_eq_runMax {α : Type} (f : α → Nat) (xs : List α)
    (x : α) : lastMax f (x :: xs) = some (runMax f x xs) := by
  induction xs generalizing x with
  | nil => simp [lastMax, runMax]
  | cons y ys ih =>
    have hr : runMax f x (y :: ys) =
        runMax f (if f x > f y then x else y) ys := rfl
    rw [hr, ← ih (if f x > f y then x else y)]
    cases hys : lastMax f ys with
    | none =>
      rw [(lastMax_eq_none f ys).mp hys]
      by_cases h1 : f x > f y <;> simp [lastMax, h1]
    | some mx =>
      have hL : lastMax f (x :: y :: ys) =
          some (if f x > f (if f y > f mx then y else mx) then x
                else (if f y > f mx then y else mx)) := by
        rw [lastMax, lastMax, hys]
      have hR : lastMax f ((if f x > f y then x else y) :: ys) =
          some (if f (if f x > f y then x else y) > f mx
                then (if f x > f y then x else y) else mx) := by
        rw [lastMax, hys]
      rw [hL, hR]
      by_cases h1 : f x > f y
      · by_cases h2 : f y > f mx
        · have h3 : f x > f mx := by omega
          simp [h1, h2, h3]
        · simp [h1, h2]
      · by_cases h2 : f y > f mx
        · simp [h1, h2]
        · have h3 : ¬ f x > f mx := by omega
          simp [h1, h2, h3]

/-- Helper: the embedding of Rust max_by agrees with lastMax. -/
theorem rustMaxBy_eq_lastMax {α : Type} (f : α → Nat) (l : List α) :
    rustMaxBy f l = lastMax f l := by
  cases l with
  | nil => rfl
  | cons x xs => rw [lastMax_cons_eq_runMax]; rfl

/-- Claim C2 counterexample: two identical surviving candidates with equal
highest score — pick_device selects enumeration index 1, the LAST, not the
first as the claim states. -/
theorem c2_counterexample :
    evalCandidate cGood = CandidateResult.eligible 7 (QueueIndexes.mk 0 0) ∧
    pick_device [cGood, cGood] =
      PickResult.picked 1 7 (QueueIndexes.mk 0 0) ∧
    pick_device [cGood, cGood] ≠
      PickResult.picked 0 7 (QueueIndexes.mk 0 0) := by
  decide

/-- Claim C2 as amended: among surviving candidates pick_device selects one
with the highest score, and when several candidates attain that score it
selects the LAST of them in enumeration order (every survivor after the
chosen one scores strictly lower, every survivor before it scores at
most the chosen score). -/
theorem c2_amended_highest_score_last_tie (devs : List DeviceCandidate)
    (i s : Nat) (ids : QueueIndexes)
    (h : pick_device devs = PickResult.picked i s ids) :
    ∃ l₁ l₂, eligibleOf devs = l₁ ++ (s, i, ids) :: l₂ ∧
      (∀ x ∈ l₁, x.1 ≤ s) ∧ (∀ x ∈ l₂, x.1 < s) := by
  unfold pick_device at h
  by_cases hp : devs.any
      (fun c => decide (evalCandidate c = CandidateResult.panicked)) = true
  · rw [if_pos hp] at h
    exact absurd h (by simp)
  · rw [if_neg hp] at h
    cases hm : rustMaxBy (fun x : Nat × Nat × QueueIndexes => x.1)
        (eligibleOf devs) with
    | none =>
      rw [hm] at h
      exact absurd h (by simp)
    | some m =>
      rw [hm] at h
      obtain ⟨ms, mi, mids⟩ := m
      simp only [PickResult.picked.injEq] at h
      obtain ⟨rfl, rfl, rfl⟩ := h
      rw [rustMaxBy_eq_lastMax] at hm
      exact lastMax_decomp (fun x : Nat × Nat × QueueIndexes => x.1) _ _ hm

/-- Claim C2 witness: the amended statement at a single-candidate list,
where the chosen entry is score 7 at enumeration index 0. -/
theorem c2_witness :
    ∃ l₁ l₂, eligibleOf [cGood] = l₁ ++ (7, 0, QueueIndexes.mk 0 0) :: l₂ ∧
      (∀ x ∈ l₁, x.1 ≤ 7) ∧ (∀ x ∈ l₂, x.1 < 7) :=
  c2_amended_highest_score_last_tie [cGood] 0 7 (QueueIndexes.mk 0 0)
    (by decide)

/-- Helper: the queue scan short-circuits with both slots set to the index
of a combined family, whatever accumulator and base index it reaches that
family with, provided no earlier family in the walked prefix is combined
and no earlier surface-support query fails. -/
theorem tryFold_combined (q : QueueFamily) (hg : q.graphics = true)
    (hs : q.surfaceSupport = some true) (l₁ : List QueueFamily) :
    ∀ (acc : QAcc) (i : Nat),
      (∀ r ∈ l₁, ¬(r.graphics = true ∧ r.surfaceSupport = some true)) →
      (∀ r ∈ l₁, r.surfaceSupport ≠ none) →
      ∀ l₂, tryFoldQueues acc i (l₁ ++ q :: l₂) =
        some (Except.error (some (i + l₁.length), some (i + l₁.length))) := by
  induction l₁ with
  | nil =>
    intro acc i _ _ l₂
    simp [tryFoldQueues, fold_into, hg, hs]
  | cons r l ih =>
    intro acc i hnc hok l₂
    have hr : ¬(r.graphics = true ∧ r.surfaceSupport = some true) :=
      hnc r (List.mem_cons_self r l)
    have hro : r.surfaceSupport ≠ none := hok r (List.mem_cons_self r l)
    have hstep : ∃ a, fold_into acc i r = some (Except.ok a) := by
      cases hsup : r.surfaceSupport with
      | none => exact absurd hsup hro
      | some b =>
        cases b with
        | true =>
          have hrg : r.graphics = false := by
            cases hrg : r.graphics
            · rfl
            · exact absurd ⟨hrg, hsup⟩ hr
          exact ⟨(acc.1, some i), by simp [fold_into, hrg, hsup]⟩
        | false =>
          cases hrg : r.graphics with
          | false => exact ⟨acc, by simp [fold_into, hrg, hsup]⟩
          | true => exact ⟨(some i, acc.2), by simp [fold_into, hrg, hsup]⟩
    obtain ⟨a, ha⟩ := hstep
    have hred : tryFoldQueues acc i ((r :: l) ++ q :: l₂) =
        tryFoldQueues a (i + 1) (l ++ q :: l₂) := by
      simp [tryFoldQueues, ha]
    rw [hred, ih a (i + 1) (fun x hx => hnc x (List.mem_cons_of_mem r hx))
        (fun x hx => hok x (List.mem_cons_of_mem r hx)) l₂]
    have hlen : i + 1 + l.length = i + (r :: l).length := by
      simp only [List.length_cons]
      omega
    rw [hlen]

/-- Claim C3: for every queue-family list containing a combined family (one
that both has the graphics flag and supports presentation) at a position
whose prefix has no combined family and no failing surface-support query,
the resolver returns that first combined index for BOTH roles, regardless
of separate graphics-only or present-only families scanned earlier --
and regardless of everything after it, which the short-circuit never
scans (l2 may even contain failing queries). -/
theorem c3_combined_family_short_circuits (l₁ l₂ : List QueueFamily)
    (q : QueueFamily) (hg : q.graphics = true)
    (hs : q.surfaceSupport = some true)
    (hnc : ∀ r ∈ l₁, ¬(r.graphics = true ∧ r.surfaceSupport = some true))
    (hok : ∀ r ∈ l₁, r.surfaceSupport ≠ none) :
    queueIds (l₁ ++ q :: l₂) =
      some (some (QueueIndexes.mk l₁.length l₁.length)) := by
  unfold queueIds
  rw [tryFold_combined q hg hs l₁ (none, none) 0 hnc hok l₂]
  simp

/-- Claim C3 witness: a graphics-only family then a present-only family are
both overridden by the combined family at index 2, and the failing query
at index 3 is never reached. -/
theorem c3_witness :
    queueIds [QueueFamily.mk true (some false), QueueFamily.mk false (some true),
      QueueFamily.mk true (some true), QueueFamily.mk false none] =
      some (some (QueueIndexes.mk 2 2)) :=
  c3_combined_family_short_circuits
    [QueueFamily.mk true (some false), QueueFamily.mk false (some true)]
    [QueueFamily.mk false none]
    (QueueFamily.mk true (some true)) rfl rfl (by decide) (by decide)

/-- Helper: when no family is combined and every surface-support query
succeeds, the scan completes and each accumulator slot holds the index of
the last family of its kind. -/
theorem tryFold_no_combined (l : List QueueFamily) :
    ∀ (acc : QAcc) (i : Nat),
      (∀ r ∈ l, ¬(r.graphics = true ∧ r.surfaceSupport = some true)) →
      (∀ r ∈ l, r.surfaceSupport ≠ none) →
      tryFoldQueues acc i l =
        some (Except.ok
          (lastIdxAux (fun r => r.graphics) acc.1 i l,
           lastIdxAux (fun r => decide (r.surfaceSupport = some true))
             acc.2 i l)) := by
  induction l with
  | nil =>
    intro acc i _ _
    simp [tryFoldQueues, lastIdxAux]
  | cons r l ih =>
    intro acc i hnc hok
    cases hsup : r.surfaceSupport with
    | none => exact absurd hsup (hok r (List.mem_cons_self r l))
    | some b =>
      cases b with
      | true =>
        have hrg : r.graphics = false := by
          cases hrg : r.graphics
          · rfl
          · exact absurd ⟨hrg, hsup⟩ (hnc r (List.mem_cons_self r l))
        have hred : tryFoldQueues acc i (r :: l) =
            tryFoldQueues (acc.1, some i) (i + 1) l := by
          simp [tryFoldQueues, fold_into, hrg, hsup]
        rw [hred,
          ih (acc.1, some i) (i + 1)
            (fun x hx => hnc x (List.mem_cons_of_mem r hx))
            (fun x hx => hok x (List.mem_cons_of_mem r hx))]
        simp [lastIdxAux, hrg, hsup]
      | false =>
        cases hrg : r.graphics with
        | true =>
          have hred : tryFoldQueues acc i (r :: l) =
              tryFoldQueues (some i, acc.2) (i + 1) l := by
            simp [tryFoldQueues, fold_into, hrg, hsup]
          rw [hred,
            ih (some i, acc.2) (i + 1)
              (fun x hx => hnc x (List.mem_cons_of_mem r hx))
              (fun x hx => hok x (List.mem_cons_of_mem r hx))]
          simp [lastIdxAux, hrg, hsup]
        | false =>
          have hred : tryFoldQueues acc i (r :: l) =
              tryFoldQueues acc (i + 1) l := by
            simp [tryFoldQueues, fold_into, hrg, hsup]
          rw [hred,
            ih acc (i + 1)
              (fun x hx => hnc x (List.mem_cons_of_mem r hx))
              (fun x hx => hok x (List.mem_cons_of_mem r hx))]
          simp [lastIdxAux, hrg, hsup]

/-- Claim C4: for every queue-family list without a combined family and
with no failing surface-support query, the resolver pairs the index of the
last graphics-capable family with the index of the last present-capable
family, and rejects (returns no selection) whenever either kind of family
is entirely absent. -/
theorem c4_no_combined_last_seen (l : List QueueFamily)
    (hnc : ∀ r ∈ l, ¬(r.graphics = true ∧ r.surfaceSupport = some true))
    (hok : ∀ r ∈ l, r.surfaceSupport ≠ none) :
    queueIds l =
      some (match lastIdxWhere (fun r => r.graphics) l,
          lastIdxWhere (fun r => decide (r.surfaceSupport = some true)) l with
        | some g, some p => some (QueueIndexes.mk g p)
        | _, _ => none) := by
  unfold queueIds lastIdxWhere
  rw [tryFold_no_combined l (none, none) 0 hnc hok]
  dsimp only
  cases hA : lastIdxAux (fun r => r.graphics) none 0 l <;>
    cases hB : lastIdxAux (fun r => decide (r.surfaceSupport = some true))
        none 0 l <;>
      simp [hA, hB]

/-- Claim C4 witness: the order-sensitive example of the spec — families
[present-only, graphics-only, graphics-only] yield graphics index 2 and
present index 0. -/
theorem c4_witness :
    queueIds [QueueFamily.mk false (some true), QueueFamily.mk true (some false),
      QueueFamily.mk true (some false)] =
      some (some (QueueIndexes.mk 2 0)) :=
  c4_no_combined_last_seen
    [QueueFamily.mk false (some true), QueueFamily.mk true (some false),
      QueueFamily.mk true (some false)]
    (by decide) (by decide)

/-- Claim C5: on every non-empty advertised list the chosen (format,
color-space) pair is advertised and its combined score (+1 preferred
format, +1 preferred color space) is MINIMAL over all advertised pairs —
the inverted, lowest-score pick of the ascending sort. -/
theorem c5_format_min_score (s : SwapChainSupport) (h : s.formats ≠ []) :
    ∃ f, choose_swap_surface_format s = some f ∧ f ∈ s.formats ∧
      ∀ g ∈ s.formats, formatScore f ≤ formatScore g := by
  have hchoose : choose_swap_surface_format s =
      (((s.formats.map (fun f => (f, formatScore f))).mergeSort
        (fun a b => decide (a.2 ≤ b.2))).head?).map (fun p => p.1) := rfl
  have hperm := List.mergeSort_perm (s.formats.map (fun f => (f, formatScore f)))
      (fun a b => decide (a.2 ≤ b.2))
  have hsorted := @List.sorted_mergeSort (SurfaceFormatKHR × Nat)
      (fun a b => decide (a.2 ≤ b.2))
      (fun a b c hab hbc => by
        simp only [decide_eq_true_eq] at hab hbc ⊢
        omega)
      (fun a b => by
        simp only [Bool.or_eq_true, decide_eq_true_eq]
        omega)
      (s.formats.map (fun f => (f, formatScore f)))
  cases hsort : (s.formats.map (fun f => (f, formatScore f))).mergeSort
      (fun a b => decide (a.2 ≤ b.2)) with
  | nil =>
    exfalso
    rw [hsort] at hperm
    have hmapnil : s.formats.map (fun f => (f, formatScore f)) = [] :=
      hperm.symm.eq_nil
    rw [List.map_eq_nil_iff] at hmapnil
    exact h hmapnil
  | cons hd tl =>
    rw [hsort] at hchoose hperm hsorted
    have hmem : hd ∈ s.formats.map (fun f => (f, formatScore f)) :=
      hperm.mem_iff.mp (List.mem_cons_self hd tl)
    obtain ⟨f0, hf0, hfe⟩ := List.mem_map.mp hmem
    have hd2 : hd.2 = formatScore hd.1 := by rw [← hfe]
    refine ⟨hd.1, by rw [hchoose]; rfl, ?_, ?_⟩
    · rw [← hfe]
      exact hf0
    · intro g hg
      have hgmem : (g, formatScore g) ∈ hd :: tl :=
        hperm.mem_iff.mpr (List.mem_map.mpr ⟨g, hg, rfl⟩)
      rcases List.mem_cons.mp hgmem with heq | htl
      · rw [← heq]
      · have hrel := (List.pairwise_cons.mp hsorted).1 _ htl
        simp only [decide_eq_true_eq] at hrel
        rw [← hd2]
        exact hrel

/-- Claim C5 witness: with the preferred pair (score 2) and an unknown pair
(score 0) advertised, the chosen pair attains the minimal score 0. -/
theorem c5_witness :
    scTwoFormats.formats ≠ [] ∧
    ∃ f, choose_swap_surface_format scTwoFormats = some f ∧
      f ∈ scTwoFormats.formats ∧
      ∀ g ∈ scTwoFormats.formats, formatScore f ≤ formatScore g :=
  ⟨by decide, c5_format_min_score scTwoFormats (by decide)⟩

end VE
